import Mathlib

/-!
Shallow embedding of drivers/gpu/drm/drm_atomic_helper.c (kernel-omap4).

The transaction engine stages per-resource shadow state for planes
(surfaces) and crtcs (outputs), checks it, commits it with per-resource
swap semantics, and releases it.  Framebuffers are identified by a
natural-number id; reference counting is modelled by a map from fb id to
count.  External hardware primitives (update_plane, disable_plane,
page_flip, drm_mode_set_config_internal, drm_connector_find) and the
per-kind check hook are opaque collaborators and appear as function
parameters, exactly as the C code dispatches to them through function
pointers.  Invocations of hooks and primitives are recorded in an
explicit event trace so that claims of the form "hook X is never
invoked" are statable.
-/

namespace DrmAtomic

/-- struct drm_plane_state: target crtc, framebuffer, destination
rectangle, source rectangle, and the back-pointer to the helper state
(modelled as the owning transaction id; NULL is none). -/
structure PlaneState where
  crtc : Option Nat
  fb : Option Nat
  crtc_x : Nat
  crtc_y : Nat
  crtc_w : Nat
  crtc_h : Nat
  src_x : Nat
  src_y : Nat
  src_w : Nat
  src_h : Nat
  backref : Option Nat
deriving Repr, DecidableEq, Inhabited

/-- struct drm_crtc_state: the set_config flag gating the full
reconfiguration payload (mode, position, connector id list), the
framebuffer, the pending vblank event token, and the back-pointer to the
helper state (transaction id). -/
structure CrtcState where
  set_config : Bool
  fb : Option Nat
  event : Option Nat
  mode_valid : Bool
  mode : Nat
  x : Nat
  y : Nat
  connector_ids : List Nat
  backref : Option Nat
deriving Repr, DecidableEq, Inhabited

/-- Live plane object: its current state block (plane->state). -/
structure Plane where
  state : PlaneState
deriving Repr, DecidableEq, Inhabited

/-- Live crtc object: its current state block (crtc->state), the legacy
framebuffer pointer crtc->fb, and whether crtc->funcs->page_flip is
non-NULL. -/
structure Crtc where
  state : CrtcState
  fb : Option Nat
  has_page_flip : Bool
deriving Repr, DecidableEq, Inhabited

/-- The world outside the transaction: live planes and crtcs indexed by
resource id, and the reference count of every framebuffer id. -/
structure World where
  planes : List Plane
  crtcs : List Crtc
  refs : Nat → Nat

/-- struct drm_atomic_helper_state: flags, the parallel touched-marker
and shadow-slot tables for planes and crtcs (a marker is the stored
resource pointer in C, modelled as a Bool), plus an identity tid used to
model the shadow back-pointers to this state object. -/
structure AtomicState where
  flags : Nat
  tid : Nat
  planes : List Bool
  pstates : List (Option PlaneState)
  crtcs : List Bool
  cstates : List (Option CrtcState)
deriving Repr, DecidableEq

/-- Trace events: one constructor per hook or hardware primitive the
helper can invoke.  checkCrtc corresponds to the check_crtc_state hook
present in the funcs table; drm_atomic_helper_check never emits it. -/
inductive Ev where
  | checkPlane (i : Nat)
  | checkCrtc (i : Nat)
  | commitPlane (i : Nat)
  | commitCrtc (i : Nat)
  | updatePlane (i : Nat)
  | disablePlane (i : Nat)
  | pageFlip (i : Nat)
  | setConfigFull (i : Nat)
  | setConfigDisable (i : Nat)
deriving Repr, DecidableEq

/-- struct drm_mode_set as built by set_config and the disable sub-case:
crtc id, position, optional mode, resolved connector pointers, fb. -/
structure ModeSet where
  crtc : Nat
  x : Nat
  y : Nat
  mode : Option Nat
  connectors : List (Option Nat)
  fb : Option Nat
deriving Repr, DecidableEq

/-- External primitives reached through function pointers: the plane
update hook result, the crtc page_flip result, the
drm_mode_set_config_internal result, and drm_connector_find. -/
structure Prims where
  update_plane : Nat → PlaneState → Int
  page_flip : Nat → Nat → Option Nat → Nat → Int
  set_config_internal : ModeSet → Int
  connector_find : Nat → Option Nat

/-- drm_framebuffer_unreference on fb id g: decrement its count. -/
def unref1 (g : Nat) (refs : Nat → Nat) : Nat → Nat :=
  fun h => if h = g then refs g - 1 else refs h

/-- if (fb) drm_framebuffer_unreference(fb). -/
def unrefOpt : Option Nat → (Nat → Nat) → Nat → Nat
  | none, refs => refs
  | some g, refs => unref1 g refs

/-- drm_atomic_helper_begin: allocate the state object sized to the
current plane and crtc counts, zero-initialize every marker and shadow
slot, record the flags.  tid models the address identity of the
allocated object. -/
def drm_atomic_helper_begin (nplanes ncrtcs flags tid : Nat) : AtomicState :=
  { flags := flags
    tid := tid
    planes := List.replicate nplanes false
    pstates := List.replicate nplanes none
    crtcs := List.replicate ncrtcs false
    cstates := List.replicate ncrtcs none }

/-- Result of begin under an explicit allocation oracle.  The C code
stores state->flags through the kzalloc result without any NULL check,
so a failed allocation is a NULL-pointer store, not an error return. -/
inductive BeginResult where
  | ok (a : AtomicState)
  | nullDeref
deriving Repr, DecidableEq

/-- Allocation-aware model of drm_atomic_helper_begin: when kzalloc
fails the very next statement dereferences the NULL result. -/
def drm_atomic_helper_begin_alloc (allocOk : Bool) (nplanes ncrtcs flags tid : Nat) :
    BeginResult :=
  if allocOk then .ok (drm_atomic_helper_begin nplanes ncrtcs flags tid)
  else .nullDeref

/-- drm_atomic_helper_init_plane_state: snapshot the current live state
and set the back-pointer to the helper state. -/
def drm_atomic_helper_init_plane_state (plane : Plane) (a : AtomicState) : PlaneState :=
  { plane.state with backref := some a.tid }

/-- drm_atomic_helper_get_plane_state: return the existing shadow if the
slot is populated, otherwise allocate one, snapshot the live state into
it, and record marker and shadow together. -/
def drm_atomic_helper_get_plane_state (i : Nat) (w : World) (a : AtomicState) :
    PlaneState × AtomicState :=
  match a.pstates.getD i none with
  | some pstate => (pstate, a)
  | none =>
    let pstate := drm_atomic_helper_init_plane_state (w.planes.getD i default) a
    (pstate,
      { a with
        planes := a.planes.set i true
        pstates := a.pstates.set i (some pstate) })

/-- drm_atomic_helper_init_crtc_state: snapshot plus back-pointer. -/
def drm_atomic_helper_init_crtc_state (crtc : Crtc) (a : AtomicState) : CrtcState :=
  { crtc.state with backref := some a.tid }

/-- drm_atomic_helper_get_crtc_state: get-or-create, as for planes. -/
def drm_atomic_helper_get_crtc_state (i : Nat) (w : World) (a : AtomicState) :
    CrtcState × AtomicState :=
  match a.cstates.getD i none with
  | some cstate => (cstate, a)
  | none =>
    let cstate := drm_atomic_helper_init_crtc_state (w.crtcs.getD i default) a
    (cstate,
      { a with
        crtcs := a.crtcs.set i true
        cstates := a.cstates.set i (some cstate) })

/-- The check loop of drm_atomic_helper_check: for each index, if the
plane is touched invoke the check hook on its shadow; break at the first
nonzero result; ret threads through as in the C local variable. -/
def checkGo (hook : Nat → PlaneState → Int) (a : AtomicState) (ret : Int) :
    List Nat → Int × List Ev
  | [] => (ret, [])
  | i :: rest =>
    if a.planes.getD i false then
      let r := hook i ((a.pstates.getD i none).getD default)
      if r ≠ 0 then (r, [Ev.checkPlane i])
      else
        let s := checkGo hook a r rest
        (s.1, Ev.checkPlane i :: s.2)
    else checkGo hook a ret rest

/-- drm_atomic_helper_check: iterate the planes in index order.  The
crtc tables are never consulted. -/
def drm_atomic_helper_check (hook : Nat → PlaneState → Int) (nplanes : Nat)
    (a : AtomicState) : Int × List Ev :=
  checkGo hook a 0 (List.range nplanes)

/-- swap_plane_state: exchange plane->state with the shadow slot. -/
def swap_plane_state (i : Nat) (w : World) (a : AtomicState) : World × AtomicState :=
  let plane := w.planes.getD i default
  let ps := (a.pstates.getD i none).getD default
  ({ w with planes := w.planes.set i { plane with state := ps } },
   { a with pstates := a.pstates.set i (some plane.state) })

/-- drm_atomic_helper_commit_plane_state.  fb captures pstate->fb on
entry; the update branch clears it on success (ownership transferred by
the swap) and old_fb captures the previous live fb; the disable branch
invokes disable_plane ignoring its result, swaps unconditionally and
releases both captured references.  The final unreferences mirror the
two trailing if statements (fb first, then old_fb). -/
def drm_atomic_helper_commit_plane_state (upd : Nat → PlaneState → Int) (i : Nat)
    (w : World) (a : AtomicState) : Int × World × AtomicState × List Ev :=
  let plane := w.planes.getD i default
  let pstate := (a.pstates.getD i none).getD default
  match pstate.crtc, pstate.fb with
  | some _, some _ =>
    let ret := upd i pstate
    if ret = 0 then
      let old_fb := plane.state.fb
      let wa := swap_plane_state i w a
      (ret, { wa.1 with refs := unrefOpt old_fb wa.1.refs }, wa.2, [Ev.updatePlane i])
    else
      (ret, { w with refs := unrefOpt pstate.fb w.refs }, a, [Ev.updatePlane i])
  | _, _ =>
    let old_fb := plane.state.fb
    let wa := swap_plane_state i w a
    (0, { wa.1 with refs := unrefOpt old_fb (unrefOpt pstate.fb wa.1.refs) }, wa.2,
      [Ev.disablePlane i])

/-- swap_crtc_state: exchange crtc->state with the shadow slot. -/
def swap_crtc_state (i : Nat) (w : World) (a : AtomicState) : World × AtomicState :=
  let crtc := w.crtcs.getD i default
  let cs := (a.cstates.getD i none).getD default
  ({ w with crtcs := w.crtcs.set i { crtc with state := cs } },
   { a with cstates := a.cstates.set i (some crtc.state) })

/-- get_connector_set: resolve each connector id with
drm_connector_find. -/
def get_connector_set (cfind : Nat → Option Nat) (ids : List Nat) : List (Option Nat) :=
  ids.map cfind

/-- set_config: build the one-shot drm_mode_set from the shadow, submit
it to drm_mode_set_config_internal, swap on success; the captured fb is
unreferenced regardless of outcome. -/
def set_config (P : Prims) (i : Nat) (w : World) (a : AtomicState) :
    Int × World × AtomicState × List Ev :=
  let cstate := (a.cstates.getD i none).getD default
  let fb := cstate.fb
  let connector_set := get_connector_set P.connector_find cstate.connector_ids
  let ms : ModeSet :=
    { crtc := i
      x := cstate.x
      y := cstate.y
      mode := if cstate.mode_valid then some cstate.mode else none
      connectors := connector_set
      fb := fb }
  let ret := P.set_config_internal ms
  let wa := if ret = 0 then swap_crtc_state i w a else (w, a)
  (ret, { wa.1 with refs := unrefOpt fb wa.1.refs }, wa.2, [Ev.setConfigFull i])

/-- drm_atomic_helper_commit_crtc_state.  ret starts at -EINVAL (-22).
set_config requested delegates to set_config.  Otherwise the page-flip
sub-case requires a staged fb differing from the staged-vs-live state fb
comparison, a currently bound legacy crtc->fb (-EBUSY = -16 otherwise)
and an available page_flip hook; on flip failure old_fb is reset to NULL
so only the attempted fb is unreferenced, on success the swap runs and
only old_fb is unreferenced.  The disable sub-case submits a NULL-fb
drm_mode_set and unreferences the previous live fb regardless of
outcome.  A staged crtc matching no sub-case falls through to the
initial -EINVAL with nothing applied. -/
def drm_atomic_helper_commit_crtc_state (P : Prims) (i : Nat)
    (w : World) (a : AtomicState) : Int × World × AtomicState × List Ev :=
  let crtc := w.crtcs.getD i default
  let cstate := (a.cstates.getD i none).getD default
  if cstate.set_config then
    set_config P i w a
  else
    match cstate.fb with
    | some f =>
      if crtc.state.fb = some f then
        (-22, w, a, [])
      else
        if crtc.fb = none then
          (-16, w, a, [])
        else if crtc.has_page_flip = false then
          (-22, w, a, [])
        else
          let old_fb := crtc.fb
          let ret := P.page_flip i f cstate.event a.flags
          if ret = 0 then
            let wa := swap_crtc_state i w a
            (ret, { wa.1 with refs := unrefOpt old_fb wa.1.refs }, wa.2, [Ev.pageFlip i])
          else
            (ret, { w with refs := unref1 f w.refs }, a, [Ev.pageFlip i])
    | none =>
      match crtc.state.fb with
      | some oldf =>
        let ms : ModeSet :=
          { crtc := i, x := 0, y := 0, mode := none, connectors := [], fb := none }
        let ret := P.set_config_internal ms
        if ret = 0 then
          let wa := swap_crtc_state i w a
          (ret, { wa.1 with refs := unref1 oldf wa.1.refs }, wa.2, [Ev.setConfigDisable i])
        else
          (ret, { w with refs := unref1 oldf w.refs }, a, [Ev.setConfigDisable i])
      | none => (-22, w, a, [])

/-- The plane pass of drm_atomic_helper_commit: per touched plane invoke
the commit hook; break at the first nonzero result; ret threads through
exactly as the C local variable does. -/
def commitPlanesGo (upd : Nat → PlaneState → Int) (ret : Int) (w : World)
    (a : AtomicState) : List Nat → Int × World × AtomicState × List Ev
  | [] => (ret, w, a, [])
  | i :: rest =>
    if a.planes.getD i false then
      let r := drm_atomic_helper_commit_plane_state upd i w a
      if r.1 ≠ 0 then (r.1, r.2.1, r.2.2.1, Ev.commitPlane i :: r.2.2.2)
      else
        let s := commitPlanesGo upd r.1 r.2.1 r.2.2.1 rest
        (s.1, s.2.1, s.2.2.1, (Ev.commitPlane i :: r.2.2.2) ++ s.2.2.2)
    else commitPlanesGo upd ret w a rest

/-- The crtc pass of drm_atomic_helper_commit, sharing the threaded ret
with the plane pass. -/
def commitCrtcsGo (P : Prims) (ret : Int) (w : World)
    (a : AtomicState) : List Nat → Int × World × AtomicState × List Ev
  | [] => (ret, w, a, [])
  | i :: rest =>
    if a.crtcs.getD i false then
      let r := drm_atomic_helper_commit_crtc_state P i w a
      if r.1 ≠ 0 then (r.1, r.2.1, r.2.2.1, Ev.commitCrtc i :: r.2.2.2)
      else
        let s := commitCrtcsGo P r.1 r.2.1 r.2.2.1 rest
        (s.1, s.2.1, s.2.2.1, (Ev.commitCrtc i :: r.2.2.2) ++ s.2.2.2)
    else commitCrtcsGo P ret w a rest

/-- drm_atomic_helper_commit: the plane pass followed, regardless of the
plane pass outcome, by the crtc pass; both loops break internally at
their first error, and the single ret variable threads from the plane
pass into the crtc pass. -/
def drm_atomic_helper_commit (P : Prims) (nplanes ncrtcs : Nat) (w : World)
    (a : AtomicState) : Int × World × AtomicState × List Ev :=
  let sp := commitPlanesGo P.update_plane 0 w a (List.range nplanes)
  let sc := commitCrtcsGo P sp.1 sp.2.1 sp.2.2.1 (List.range ncrtcs)
  (sc.1, sc.2.1, sc.2.2.1, sp.2.2.2 ++ sc.2.2.2)

/-- One plane iteration of drm_atomic_helper_end: if the shadow slot is
populated, clear the live state back-pointer (the shadow itself is
freed, which the model expresses by dropping the whole AtomicState). -/
def endPlaneStep (a : AtomicState) (w : World) (i : Nat) : World :=
  if (a.pstates.getD i none).isSome then
    let plane := w.planes.getD i default
    { w with
      planes := w.planes.set i { plane with state := { plane.state with backref := none } } }
  else w

/-- One crtc iteration of drm_atomic_helper_end. -/
def endCrtcStep (a : AtomicState) (w : World) (i : Nat) : World :=
  if (a.cstates.getD i none).isSome then
    let crtc := w.crtcs.getD i default
    { w with
      crtcs := w.crtcs.set i { crtc with state := { crtc.state with backref := none } } }
  else w

/-- drm_atomic_helper_end: release every populated shadow (clearing the
corresponding live state back-pointer), then free the state object. -/
def drm_atomic_helper_end (nplanes ncrtcs : Nat) (w : World) (a : AtomicState) : World :=
  let w1 := (List.range nplanes).foldl (endPlaneStep a) w
  (List.range ncrtcs).foldl (endCrtcStep a) w1

/-- The parallel-table invariant of the transaction object: marker and
shadow-slot tables have matching lengths, and a touched marker is set
exactly when the matching shadow slot is populated, for planes and for
crtcs alike. -/
def SlotInv (a : AtomicState) : Prop :=
  a.planes.length = a.pstates.length ∧
  a.crtcs.length = a.cstates.length ∧
  (∀ i, a.planes.getD i false = true ↔ (a.pstates.getD i none).isSome) ∧
  (∀ i, a.crtcs.getD i false = true ↔ (a.cstates.getD i none).isSome)

/-- Transaction states reachable through begin, stage (for either
resource kind) and the commit phase.  The check phase never modifies the
transaction object, so it contributes no step. -/
inductive Reach : World → AtomicState → Prop where
  | begin (nplanes ncrtcs flags tid : Nat) (w : World) :
      Reach w (drm_atomic_helper_begin nplanes ncrtcs flags tid)
  | stagePlane (i : Nat) {w : World} {a : AtomicState} :
      Reach w a → Reach w (drm_atomic_helper_get_plane_state i w a).2
  | stageCrtc (i : Nat) {w : World} {a : AtomicState} :
      Reach w a → Reach w (drm_atomic_helper_get_crtc_state i w a).2
  | commit (P : Prims) (nplanes ncrtcs : Nat) {w : World} {a : AtomicState} :
      Reach w a →
      Reach (drm_atomic_helper_commit P nplanes ncrtcs w a).2.1
        (drm_atomic_helper_commit P nplanes ncrtcs w a).2.2.1

/-- Plane state literal with zeroed geometry, for concrete instances. -/
def mkPS (c f : Option Nat) : PlaneState :=
  { crtc := c, fb := f, crtc_x := 0, crtc_y := 0, crtc_w := 0, crtc_h := 0,
    src_x := 0, src_y := 0, src_w := 0, src_h := 0, backref := none }

/-- Crtc state literal with zeroed payload, for concrete instances. -/
def mkCS (sc : Bool) (f : Option Nat) : CrtcState :=
  { set_config := sc, fb := f, event := none, mode_valid := false, mode := 0,
    x := 0, y := 0, connector_ids := [], backref := none }

/-- Concrete primitives whose calls all succeed. -/
def exPrimsOk : Prims := ⟨fun _ _ => 0, fun _ _ _ _ => 0, fun _ => 0, fun _ => none⟩

/-- Concrete primitives whose page flip fails with -19. -/
def exPrimsFlipFail : Prims :=
  ⟨fun _ _ => 0, fun _ _ _ _ => -19, fun _ => 0, fun _ => none⟩

/-- Concrete primitives whose plane update fails with -5. -/
def exPrimsPlaneFail : Prims :=
  ⟨fun _ _ => -5, fun _ _ _ _ => 0, fun _ => 0, fun _ => none⟩

/-- World for the unbound page-flip instance: one crtc, nothing bound. -/
def exW4 : World :=
  { planes := [], crtcs := [⟨mkCS false none, none, true⟩], refs := fun _ => 0 }

/-- Transaction staging a page flip to framebuffer 1 on crtc 0. -/
def exA4 : AtomicState := ⟨0, 0, [], [], [true], [some (mkCS false (some 1))]⟩

/-- World for the failing page-flip instance: crtc 0 shows fb 2. -/
def exW5 : World :=
  { planes := [], crtcs := [⟨mkCS false (some 2), some 2, true⟩], refs := fun _ => 1 }

/-- Transaction staging a page flip to framebuffer 1 on crtc 0. -/
def exA5 : AtomicState := ⟨0, 0, [], [], [true], [some (mkCS false (some 1))]⟩

/-- World for the successful surface update: plane 0 shows fb 2. -/
def exW6 : World :=
  { planes := [⟨mkPS none (some 2)⟩], crtcs := [], refs := fun _ => 1 }

/-- Transaction staging plane 0 to show fb 1 on crtc 0. -/
def exA6 : AtomicState := ⟨0, 0, [true], [some (mkPS (some 0) (some 1))], [], []⟩

/-- World for the no-op output touch: crtc 0 shows fb 3. -/
def exW10 : World :=
  { planes := [], crtcs := [⟨mkCS false (some 3), some 3, true⟩], refs := fun _ => 1 }

/-- Transaction staging crtc 0 with the framebuffer it already shows. -/
def exA10 : AtomicState := ⟨0, 0, [], [], [true], [some (mkCS false (some 3))]⟩

/-- World with one plane showing nothing and one crtc showing fb 2. -/
def exW1 : World :=
  { planes := [⟨mkPS none none⟩],
    crtcs := [⟨mkCS false (some 2), some 2, true⟩], refs := fun _ => 1 }

/-- Transaction staging a plane update (fb 1 on crtc 0) and a crtc
disable (framebuffer cleared). -/
def exA1 : AtomicState :=
  ⟨0, 7, [true], [some (mkPS (some 0) (some 1))], [true], [some (mkCS false none)]⟩

/-! ### Generic list helpers -/

theorem getD_set_self {α} (l : List α) (i : Nat) (x d : α) (h : i < l.length) :
    (l.set i x).getD i d = x := by
  simp [List.getD, List.getElem?_set_self, h]

theorem getD_set_ne {α} (l : List α) (i j : Nat) (x d : α) (h : i ≠ j) :
    (l.set i x).getD j d = l.getD j d := by
  simp [List.getD, List.getElem?_set_ne h]

theorem getD_set_preserve {α} (l : List α) (i j : Nat) (x d : α)
    (h : i ≠ j ∨ l.length ≤ i) : (l.set i x).getD j d = l.getD j d := by
  rcases h with h | h
  · exact getD_set_ne l i j x d h
  · rw [List.set_eq_of_length_le h]

theorem getD_replicate_self {α} (n i : Nat) (c : α) :
    (List.replicate n c).getD i c = c := by
  simp [List.getD]

theorem range_split (j m : Nat) (h : j < m) :
    List.range m = List.range j ++ j :: List.range' (j + 1) (m - j - 1) := by
  obtain ⟨k, rfl⟩ : ∃ k, m = j + (k + 1) := ⟨m - j - 1, by omega⟩
  have hk : j + (k + 1) - j - 1 = k := by omega
  rw [hk]
  have h3 := List.range'_append 0 j (k + 1) 1
  simp only [Nat.zero_add, Nat.one_mul] at h3
  rw [List.range_eq_range' (j + (k + 1)), List.range_eq_range' j]
  rw [Nat.add_comm (k + 1) j] at h3
  rw [← h3, List.range'_succ]

/-! ### Shape lemmas for the per-resource commit steps -/

/-- One plane commit leaves every transaction field except possibly the
plane shadow slot i untouched; that slot either keeps its value or
receives the previous live state (the swap). -/
theorem commit_plane_state_txn_shape (upd : Nat → PlaneState → Int) (i : Nat)
    (w : World) (a : AtomicState) :
    (drm_atomic_helper_commit_plane_state upd i w a).2.2.1 = a ∨
      (drm_atomic_helper_commit_plane_state upd i w a).2.2.1 =
        { a with pstates := a.pstates.set i (some (w.planes.getD i default).state) } := by
  unfold drm_atomic_helper_commit_plane_state swap_plane_state
  dsimp only
  repeat' split
  all_goals first | (left; rfl) | (right; rfl)

/-- One plane commit leaves the crtc side of the world untouched and
modifies the live planes at most at index i. -/
theorem commit_plane_state_world_shape (upd : Nat → PlaneState → Int) (i : Nat)
    (w : World) (a : AtomicState) :
    (drm_atomic_helper_commit_plane_state upd i w a).2.1.crtcs = w.crtcs ∧
      ((drm_atomic_helper_commit_plane_state upd i w a).2.1.planes = w.planes ∨
        ∃ p, (drm_atomic_helper_commit_plane_state upd i w a).2.1.planes =
          w.planes.set i p) := by
  unfold drm_atomic_helper_commit_plane_state swap_plane_state
  dsimp only
  repeat' split
  all_goals first | exact ⟨rfl, Or.inl rfl⟩ | exact ⟨rfl, Or.inr ⟨_, rfl⟩⟩

/-- One crtc commit leaves every transaction field except possibly the
crtc shadow slot i untouched; that slot either keeps its value or
receives the previous live state (the swap). -/
theorem commit_crtc_state_txn_shape (P : Prims) (i : Nat)
    (w : World) (a : AtomicState) :
    (drm_atomic_helper_commit_crtc_state P i w a).2.2.1 = a ∨
      (drm_atomic_helper_commit_crtc_state P i w a).2.2.1 =
        { a with cstates := a.cstates.set i (some (w.crtcs.getD i default).state) } := by
  unfold drm_atomic_helper_commit_crtc_state set_config swap_crtc_state
  dsimp only
  repeat' split
  all_goals first | (left; rfl) | (right; rfl)

/-- One crtc commit leaves the plane side of the world untouched and
modifies the live crtcs at most at index i. -/
theorem commit_crtc_state_world_shape (P : Prims) (i : Nat)
    (w : World) (a : AtomicState) :
    (drm_atomic_helper_commit_crtc_state P i w a).2.1.planes = w.planes ∧
      ((drm_atomic_helper_commit_crtc_state P i w a).2.1.crtcs = w.crtcs ∨
        ∃ c, (drm_atomic_helper_commit_crtc_state P i w a).2.1.crtcs =
          w.crtcs.set i c) := by
  unfold drm_atomic_helper_commit_crtc_state set_config swap_crtc_state
  dsimp only
  repeat' split
  all_goals first | exact ⟨rfl, Or.inl rfl⟩ | exact ⟨rfl, Or.inr ⟨_, rfl⟩⟩

/-- Transaction fields other than the plane shadow slots survive one
plane commit unchanged. -/
theorem commit_plane_state_txn_fields (upd : Nat → PlaneState → Int) (i : Nat)
    (w : World) (a : AtomicState) :
    (drm_atomic_helper_commit_plane_state upd i w a).2.2.1.planes = a.planes ∧
    (drm_atomic_helper_commit_plane_state upd i w a).2.2.1.crtcs = a.crtcs ∧
    (drm_atomic_helper_commit_plane_state upd i w a).2.2.1.cstates = a.cstates ∧
    (drm_atomic_helper_commit_plane_state upd i w a).2.2.1.flags = a.flags ∧
    (drm_atomic_helper_commit_plane_state upd i w a).2.2.1.tid = a.tid := by
  obtain h | h := commit_plane_state_txn_shape upd i w a <;> rw [h] <;>
    exact ⟨rfl, rfl, rfl, rfl, rfl⟩

/-- A plane shadow slot other than the committed one is unchanged. -/
theorem commit_plane_state_pstates_getD (upd : Nat → PlaneState → Int) (i : Nat)
    (w : World) (a : AtomicState) (j : Nat) (h : i ≠ j) :
    (drm_atomic_helper_commit_plane_state upd i w a).2.2.1.pstates.getD j none =
      a.pstates.getD j none := by
  obtain hs | hs := commit_plane_state_txn_shape upd i w a <;> rw [hs] <;>
    first | rfl | exact getD_set_ne _ i j _ _ h

/-- A live plane other than the committed one is unchanged. -/
theorem commit_plane_state_planes_getD (upd : Nat → PlaneState → Int) (i : Nat)
    (w : World) (a : AtomicState) (j : Nat) (h : i ≠ j) :
    (drm_atomic_helper_commit_plane_state upd i w a).2.1.planes.getD j default =
      w.planes.getD j default := by
  obtain ⟨_, hp | ⟨p, hp⟩⟩ := commit_plane_state_world_shape upd i w a <;> rw [hp] <;>
    first | rfl | exact getD_set_ne _ i j _ _ h

/-- Transaction fields other than the crtc shadow slots survive one crtc
commit unchanged. -/
theorem commit_crtc_state_txn_fields (P : Prims) (i : Nat)
    (w : World) (a : AtomicState) :
    (drm_atomic_helper_commit_crtc_state P i w a).2.2.1.planes = a.planes ∧
    (drm_atomic_helper_commit_crtc_state P i w a).2.2.1.pstates = a.pstates ∧
    (drm_atomic_helper_commit_crtc_state P i w a).2.2.1.crtcs = a.crtcs ∧
    (drm_atomic_helper_commit_crtc_state P i w a).2.2.1.flags = a.flags ∧
    (drm_atomic_helper_commit_crtc_state P i w a).2.2.1.tid = a.tid := by
  obtain h | h := commit_crtc_state_txn_shape P i w a <;> rw [h] <;>
    exact ⟨rfl, rfl, rfl, rfl, rfl⟩

/-- A crtc shadow slot other than the committed one is unchanged. -/
theorem commit_crtc_state_cstates_getD (P : Prims) (i : Nat)
    (w : World) (a : AtomicState) (j : Nat) (h : i ≠ j) :
    (drm_atomic_helper_commit_crtc_state P i w a).2.2.1.cstates.getD j none =
      a.cstates.getD j none := by
  obtain hs | hs := commit_crtc_state_txn_shape P i w a <;> rw [hs] <;>
    first | rfl | exact getD_set_ne _ i j _ _ h

/-- A live crtc other than the committed one is unchanged. -/
theorem commit_crtc_state_crtcs_getD (P : Prims) (i : Nat)
    (w : World) (a : AtomicState) (j : Nat) (h : i ≠ j) :
    (drm_atomic_helper_commit_crtc_state P i w a).2.1.crtcs.getD j default =
      w.crtcs.getD j default := by
  obtain ⟨_, hp | ⟨c, hp⟩⟩ := commit_crtc_state_world_shape P i w a <;> rw [hp] <;>
    first | rfl | exact getD_set_ne _ i j _ _ h

/-! ### Frame lemmas for the commit passes -/

/-- The plane pass never touches markers, the crtc side of the
transaction, or the live crtcs. -/
theorem commitPlanesGo_frame (upd : Nat → PlaneState → Int) (ret : Int) (w : World)
    (a : AtomicState) (l : List Nat) :
    (commitPlanesGo upd ret w a l).2.2.1.planes = a.planes ∧
    (commitPlanesGo upd ret w a l).2.2.1.crtcs = a.crtcs ∧
    (commitPlanesGo upd ret w a l).2.2.1.cstates = a.cstates ∧
    (commitPlanesGo upd ret w a l).2.1.crtcs = w.crtcs := by
  induction l generalizing ret w a with
  | nil => exact ⟨rfl, rfl, rfl, rfl⟩
  | cons i rest ih =>
    simp only [commitPlanesGo]
    split
    · split
      · refine ⟨?_, ?_, ?_, ?_⟩
        · exact (commit_plane_state_txn_fields upd i w a).1
        · exact (commit_plane_state_txn_fields upd i w a).2.1
        · exact (commit_plane_state_txn_fields upd i w a).2.2.1
        · exact (commit_plane_state_world_shape upd i w a).1
      · obtain ⟨ih1, ih2, ih3, ih4⟩ := ih (drm_atomic_helper_commit_plane_state upd i w a).1
          (drm_atomic_helper_commit_plane_state upd i w a).2.1
          (drm_atomic_helper_commit_plane_state upd i w a).2.2.1
        refine ⟨?_, ?_, ?_, ?_⟩
        · exact ih1.trans (commit_plane_state_txn_fields upd i w a).1
        · exact ih2.trans (commit_plane_state_txn_fields upd i w a).2.1
        · exact ih3.trans (commit_plane_state_txn_fields upd i w a).2.2.1
        · exact ih4.trans (commit_plane_state_world_shape upd i w a).1
    · exact ih ret w a

/-- The crtc pass never touches markers, the plane side of the
transaction, or the live planes. -/
theorem commitCrtcsGo_frame (P : Prims) (ret : Int) (w : World)
    (a : AtomicState) (l : List Nat) :
    (commitCrtcsGo P ret w a l).2.2.1.planes = a.planes ∧
    (commitCrtcsGo P ret w a l).2.2.1.pstates = a.pstates ∧
    (commitCrtcsGo P ret w a l).2.2.1.crtcs = a.crtcs ∧
    (commitCrtcsGo P ret w a l).2.1.planes = w.planes := by
  induction l generalizing ret w a with
  | nil => exact ⟨rfl, rfl, rfl, rfl⟩
  | cons i rest ih =>
    simp only [commitCrtcsGo]
    split
    · split
      · refine ⟨?_, ?_, ?_, ?_⟩
        · exact (commit_crtc_state_txn_fields P i w a).1
        · exact (commit_crtc_state_txn_fields P i w a).2.1
        · exact (commit_crtc_state_txn_fields P i w a).2.2.1
        · exact (commit_crtc_state_world_shape P i w a).1
      · obtain ⟨ih1, ih2, ih3, ih4⟩ := ih (drm_atomic_helper_commit_crtc_state P i w a).1
          (drm_atomic_helper_commit_crtc_state P i w a).2.1
          (drm_atomic_helper_commit_crtc_state P i w a).2.2.1
        refine ⟨?_, ?_, ?_, ?_⟩
        · exact ih1.trans (commit_crtc_state_txn_fields P i w a).1
        · exact ih2.trans (commit_crtc_state_txn_fields P i w a).2.1
        · exact ih3.trans (commit_crtc_state_txn_fields P i w a).2.2.1
        · exact ih4.trans (commit_crtc_state_world_shape P i w a).1
    · exact ih ret w a

/-- A plane never staged is untouched by the plane pass: its live state
and its shadow slot keep their values. -/
theorem commitPlanesGo_untouched (upd : Nat → PlaneState → Int) (ret : Int)
    (w : World) (a : AtomicState) (l : List Nat) (i : Nat)
    (hm : a.planes.getD i false = false) :
    (commitPlanesGo upd ret w a l).2.1.planes.getD i default =
      w.planes.getD i default ∧
    (commitPlanesGo upd ret w a l).2.2.1.pstates.getD i none =
      a.pstates.getD i none := by
  induction l generalizing ret w a with
  | nil => exact ⟨rfl, rfl⟩
  | cons j rest ih =>
    simp only [commitPlanesGo]
    split
    · rename_i hj
      have hji : j ≠ i := by
        intro e
        rw [e, hm] at hj
        exact Bool.noConfusion hj
      split
      · exact ⟨commit_plane_state_planes_getD upd j w a i hji,
          commit_plane_state_pstates_getD upd j w a i hji⟩
      · have hm2 : (drm_atomic_helper_commit_plane_state upd j w a).2.2.1.planes.getD
            i false = false := by
          rw [(commit_plane_state_txn_fields upd j w a).1]; exact hm
        obtain ⟨ih1, ih2⟩ := ih (drm_atomic_helper_commit_plane_state upd j w a).1
          (drm_atomic_helper_commit_plane_state upd j w a).2.1
          (drm_atomic_helper_commit_plane_state upd j w a).2.2.1 hm2
        exact ⟨ih1.trans (commit_plane_state_planes_getD upd j w a i hji),
          ih2.trans (commit_plane_state_pstates_getD upd j w a i hji)⟩
    · exact ih ret w a hm

/-- A crtc never staged is untouched by the crtc pass: its live state
and its shadow slot keep their values. -/
theorem commitCrtcsGo_untouched (P : Prims) (ret : Int)
    (w : World) (a : AtomicState) (l : List Nat) (i : Nat)
    (hm : a.crtcs.getD i false = false) :
    (commitCrtcsGo P ret w a l).2.1.crtcs.getD i default =
      w.crtcs.getD i default ∧
    (commitCrtcsGo P ret w a l).2.2.1.cstates.getD i none =
      a.cstates.getD i none := by
  induction l generalizing ret w a with
  | nil => exact ⟨rfl, rfl⟩
  | cons j rest ih =>
    simp only [commitCrtcsGo]
    split
    · rename_i hj
      have hji : j ≠ i := by
        intro e
        rw [e, hm] at hj
        exact Bool.noConfusion hj
      split
      · exact ⟨commit_crtc_state_crtcs_getD P j w a i hji,
          commit_crtc_state_cstates_getD P j w a i hji⟩
      · have hm2 : (drm_atomic_helper_commit_crtc_state P j w a).2.2.1.crtcs.getD
            i false = false := by
          rw [(commit_crtc_state_txn_fields P j w a).2.2.1]; exact hm
        obtain ⟨ih1, ih2⟩ := ih (drm_atomic_helper_commit_crtc_state P j w a).1
          (drm_atomic_helper_commit_crtc_state P j w a).2.1
          (drm_atomic_helper_commit_crtc_state P j w a).2.2.1 hm2
        exact ⟨ih1.trans (commit_crtc_state_crtcs_getD P j w a i hji),
          ih2.trans (commit_crtc_state_cstates_getD P j w a i hji)⟩
    · exact ih ret w a hm

/-! ### Frame lemmas for end -/

theorem endPlaneStep_crtcs (a : AtomicState) (w : World) (i : Nat) :
    (endPlaneStep a w i).crtcs = w.crtcs := by
  unfold endPlaneStep; split <;> rfl

theorem endCrtcStep_planes (a : AtomicState) (w : World) (i : Nat) :
    (endCrtcStep a w i).planes = w.planes := by
  unfold endCrtcStep; split <;> rfl

theorem foldl_endPlaneStep_crtcs (a : AtomicState) (l : List Nat) (w : World) :
    (l.foldl (endPlaneStep a) w).crtcs = w.crtcs := by
  induction l generalizing w with
  | nil => rfl
  | cons j rest ih => rw [List.foldl_cons, ih, endPlaneStep_crtcs]

theorem foldl_endCrtcStep_planes (a : AtomicState) (l : List Nat) (w : World) :
    (l.foldl (endCrtcStep a) w).planes = w.planes := by
  induction l generalizing w with
  | nil => rfl
  | cons j rest ih => rw [List.foldl_cons, ih, endCrtcStep_planes]

/-- A plane whose shadow slot is empty is untouched by the plane loop of
end. -/
theorem foldl_endPlaneStep_planes_getD (a : AtomicState) (l : List Nat) (w : World)
    (i : Nat) (hs : a.pstates.getD i none = none) :
    (l.foldl (endPlaneStep a) w).planes.getD i default = w.planes.getD i default := by
  induction l generalizing w with
  | nil => rfl
  | cons j rest ih =>
    rw [List.foldl_cons, ih]
    by_cases hji : j = i
    · subst hji
      unfold endPlaneStep
      rw [hs]
      rfl
    · unfold endPlaneStep
      split
      · exact getD_set_ne _ j i _ _ hji
      · rfl

/-- A crtc whose shadow slot is empty is untouched by the crtc loop of
end. -/
theorem foldl_endCrtcStep_crtcs_getD (a : AtomicState) (l : List Nat) (w : World)
    (i : Nat) (hs : a.cstates.getD i none = none) :
    (l.foldl (endCrtcStep a) w).crtcs.getD i default = w.crtcs.getD i default := by
  induction l generalizing w with
  | nil => rfl
  | cons j rest ih =>
    rw [List.foldl_cons, ih]
    by_cases hji : j = i
    · subst hji
      unfold endCrtcStep
      rw [hs]
      rfl
    · unfold endCrtcStep
      split
      · exact getD_set_ne _ j i _ _ hji
      · rfl

/-! ### Claim theorems -/

/-- Claim C2: begin is claimed to return a testable OutOfMemory error
whenever allocation fails and never to proceed on a failed allocation.
The code has no NULL check after kzalloc: on allocation failure it
stores the flags through the NULL pointer.  This theorem evaluates the
allocation-aware model at the failing input: the result is the NULL
dereference, not an error return. -/
theorem c2_begin_unchecked_allocation (nplanes ncrtcs flags tid : Nat) :
    drm_atomic_helper_begin_alloc false nplanes ncrtcs flags tid =
      BeginResult.nullDeref := rfl

/-- Claim C4: a page-flip commit attempted on an output with no bound
legacy framebuffer fails with -EBUSY (ResourceUnbound) and leaves the
world, the transaction and the trace untouched: no swap, no primitive
invoked. -/
theorem c4_pageflip_unbound_resource_unbound (P : Prims) (i : Nat) (w : World)
    (a : AtomicState) (cs : CrtcState) (c : Crtc) (f : Nat)
    (hcs : (a.cstates.getD i none).getD default = cs)
    (hc : w.crtcs.getD i default = c)
    (h1 : cs.set_config = false)
    (h2 : cs.fb = some f)
    (h3 : c.state.fb ≠ some f)
    (h4 : c.fb = none) :
    drm_atomic_helper_commit_crtc_state P i w a = (-16, w, a, []) := by
  unfold drm_atomic_helper_commit_crtc_state
  rw [hcs, hc]
  simp [h1, h2, h3, h4]

/-- Closed instance of c4_pageflip_unbound_resource_unbound. -/
theorem c4_witness :
    drm_atomic_helper_commit_crtc_state exPrimsOk 0 exW4 exA4 =
      (-16, exW4, exA4, []) :=
  c4_pageflip_unbound_resource_unbound exPrimsOk 0 exW4 exA4 _ _ 1 rfl rfl rfl rfl
    (by decide) rfl

/-- Claim C5: when the page-flip primitive fails, no swap occurs, the
previously bound framebuffer keeps its reference, and exactly one
reference to the attempted new framebuffer is released, restoring its
count to the value before the staged borrow. -/
theorem c5_pageflip_failure_refcounts (P : Prims) (i : Nat) (w : World)
    (a : AtomicState) (cs : CrtcState) (c : Crtc) (f oldf : Nat)
    (hcs : (a.cstates.getD i none).getD default = cs)
    (hc : w.crtcs.getD i default = c)
    (h1 : cs.set_config = false)
    (h2 : cs.fb = some f)
    (h3 : c.state.fb ≠ some f)
    (h4 : c.fb = some oldf)
    (h5 : c.has_page_flip = true)
    (h6 : P.page_flip i f cs.event a.flags ≠ 0)
    (h7 : oldf ≠ f) :
    drm_atomic_helper_commit_crtc_state P i w a =
      (P.page_flip i f cs.event a.flags, { w with refs := unref1 f w.refs }, a,
        [Ev.pageFlip i]) ∧
    (∀ n, w.refs f = n + 1 →
      (drm_atomic_helper_commit_crtc_state P i w a).2.1.refs f = n) ∧
    (drm_atomic_helper_commit_crtc_state P i w a).2.1.refs oldf = w.refs oldf ∧
    (∀ g, g ≠ f → (drm_atomic_helper_commit_crtc_state P i w a).2.1.refs g = w.refs g) ∧
    (drm_atomic_helper_commit_crtc_state P i w a).2.1.crtcs = w.crtcs ∧
    (drm_atomic_helper_commit_crtc_state P i w a).2.2.1 = a := by
  have hres : drm_atomic_helper_commit_crtc_state P i w a =
      (P.page_flip i f cs.event a.flags, { w with refs := unref1 f w.refs }, a,
        [Ev.pageFlip i]) := by
    unfold drm_atomic_helper_commit_crtc_state
    rw [hcs, hc]
    simp [h1, h2, h3, h4, h5, h6]
  refine ⟨hres, ?_, ?_, ?_, ?_, ?_⟩
  · intro n hn
    rw [hres]
    simp [unref1, hn]
  · rw [hres]
    simp [unref1, h7]
  · intro g hg
    rw [hres]
    simp [unref1, hg]
  · rw [hres]
  · rw [hres]

/-- Closed instance of c5_pageflip_failure_refcounts. -/
theorem c5_witness :
    (drm_atomic_helper_commit_crtc_state exPrimsFlipFail 0 exW5 exA5).2.1.refs 2 = 1 :=
  (c5_pageflip_failure_refcounts exPrimsFlipFail 0 exW5 exA5 _ _ 1 2 rfl rfl rfl rfl
    (by decide) rfl rfl (by decide) (by decide)).2.2.1

/-- Claim C6: a successful surface update commit swaps the shadow and
live state blocks, releases exactly one reference to the previous live
framebuffer, and transfers the new framebuffer reference without any
release, leaving the live state holding the new framebuffer. -/
theorem c6_surface_update_success_swap_and_refs (upd : Nat → PlaneState → Int)
    (i : Nat) (w : World) (a : AtomicState) (ps : PlaneState) (pl : Plane)
    (c newf oldf : Nat)
    (hps : (a.pstates.getD i none).getD default = ps)
    (hpl : w.planes.getD i default = pl)
    (h1 : ps.crtc = some c)
    (h2 : ps.fb = some newf)
    (h3 : upd i ps = 0)
    (h4 : pl.state.fb = some oldf)
    (h5 : oldf ≠ newf)
    (hil : i < w.planes.length)
    (hia : i < a.pstates.length) :
    (drm_atomic_helper_commit_plane_state upd i w a).1 = 0 ∧
    ((drm_atomic_helper_commit_plane_state upd i w a).2.1.planes.getD i default).state
      = ps ∧
    (drm_atomic_helper_commit_plane_state upd i w a).2.2.1.pstates.getD i none =
      some pl.state ∧
    (drm_atomic_helper_commit_plane_state upd i w a).2.1.refs oldf =
      w.refs oldf - 1 ∧
    (∀ g, g ≠ oldf →
      (drm_atomic_helper_commit_plane_state upd i w a).2.1.refs g = w.refs g) ∧
    (drm_atomic_helper_commit_plane_state upd i w a).2.1.refs newf = w.refs newf ∧
    ((drm_atomic_helper_commit_plane_state upd i w a).2.1.planes.getD i
      default).state.fb = some newf ∧
    (drm_atomic_helper_commit_plane_state upd i w a).2.2.1.planes = a.planes ∧
    (drm_atomic_helper_commit_plane_state upd i w a).2.2.2 = [Ev.updatePlane i] := by
  have hres : drm_atomic_helper_commit_plane_state upd i w a =
      (0, { planes := w.planes.set i { pl with state := ps }, crtcs := w.crtcs,
            refs := unref1 oldf w.refs },
       { a with pstates := a.pstates.set i (some pl.state) },
       [Ev.updatePlane i]) := by
    unfold drm_atomic_helper_commit_plane_state swap_plane_state
    rw [hps, hpl]
    simp [h1, h2, h3, h4, unrefOpt]
  refine ⟨?_, ?_, ?_, ?_, ?_, ?_, ?_, ?_, ?_⟩
  · rw [hres]
  · rw [hres]
    exact congrArg Plane.state (getD_set_self _ _ _ _ hil)
  · rw [hres]
    exact getD_set_self _ _ _ _ hia
  · rw [hres]
    simp [unref1]
  · intro g hg
    rw [hres]
    simp [unref1, hg]
  · rw [hres]
    simp [unref1, Ne.symm h5]
  · rw [hres]
    rw [getD_set_self _ _ _ _ hil]
    exact h2
  · rw [hres]
  · rw [hres]

/-- Closed instance of c6_surface_update_success_swap_and_refs. -/
theorem c6_witness :
    ((drm_atomic_helper_commit_plane_state (fun _ _ => 0) 0 exW6
        exA6).2.1.planes.getD 0 default).state.fb = some 1 :=
  (c6_surface_update_success_swap_and_refs (fun _ _ => 0) 0 exW6 exA6 _ _ 0 1 2
    rfl rfl rfl rfl rfl rfl (by decide) (by decide) (by decide)).2.2.2.2.2.2.1

/-- Claim C10: a staged output matching none of the three commit
sub-cases (set_config unset and staged framebuffer equal to the live
state framebuffer) applies nothing and leaves everything unchanged, yet
returns -EINVAL instead of success. -/
theorem c10_noop_output_touch_returns_einval (P : Prims) (i : Nat) (w : World)
    (a : AtomicState) (cs : CrtcState) (c : Crtc)
    (hcs : (a.cstates.getD i none).getD default = cs)
    (hc : w.crtcs.getD i default = c)
    (h1 : cs.set_config = false)
    (h2 : c.state.fb = cs.fb) :
    drm_atomic_helper_commit_crtc_state P i w a = (-22, w, a, []) := by
  unfold drm_atomic_helper_commit_crtc_state
  rw [hcs, hc]
  dsimp only
  rcases hfb : cs.fb with _ | f
  · rw [h2, hfb]
    simp [h1]
  · rw [h2, hfb]
    simp [h1]

/-- Closed instance of c10_noop_output_touch_returns_einval. -/
theorem c10_witness :
    drm_atomic_helper_commit_crtc_state exPrimsOk 0 exW10 exA10 =
      (-22, exW10, exA10, []) :=
  c10_noop_output_touch_returns_einval exPrimsOk 0 exW10 exA10 _ _ rfl rfl rfl rfl

/-- Value of getD beyond the length of the list. -/
theorem getD_of_length_le {α} (l : List α) (i : Nat) (d : α) (h : l.length ≤ i) :
    l.getD i d = d := by
  simp [List.getD, List.getElem?_eq_none h]

/-- Resources with a clear marker are untouched by the whole commit
phase, and their shadow slots stay as they were. -/
theorem commit_untouched (P : Prims) (n m : Nat) (w : World) (a : AtomicState)
    (i j : Nat) (hpm : a.planes.getD i false = false)
    (hcm : a.crtcs.getD j false = false) :
    (drm_atomic_helper_commit P n m w a).2.1.planes.getD i default =
      w.planes.getD i default ∧
    (drm_atomic_helper_commit P n m w a).2.1.crtcs.getD j default =
      w.crtcs.getD j default ∧
    (drm_atomic_helper_commit P n m w a).2.2.1.pstates.getD i none =
      a.pstates.getD i none ∧
    (drm_atomic_helper_commit P n m w a).2.2.1.cstates.getD j none =
      a.cstates.getD j none := by
  unfold drm_atomic_helper_commit
  dsimp only
  obtain ⟨hp1, hp2⟩ := commitPlanesGo_untouched P.update_plane 0 w a (List.range n) i hpm
  obtain ⟨hfP, hfC, hfCS, hfW⟩ := commitPlanesGo_frame P.update_plane 0 w a (List.range n)
  have hcm2 : (commitPlanesGo P.update_plane 0 w a
      (List.range n)).2.2.1.crtcs.getD j false = false := by
    rw [hfC]; exact hcm
  obtain ⟨hc1, hc2⟩ := commitCrtcsGo_untouched P
    (commitPlanesGo P.update_plane 0 w a (List.range n)).1
    (commitPlanesGo P.update_plane 0 w a (List.range n)).2.1
    (commitPlanesGo P.update_plane 0 w a (List.range n)).2.2.1
    (List.range m) j hcm2
  obtain ⟨hgP, hgPS, hgC, hgW⟩ := commitCrtcsGo_frame P
    (commitPlanesGo P.update_plane 0 w a (List.range n)).1
    (commitPlanesGo P.update_plane 0 w a (List.range n)).2.1
    (commitPlanesGo P.update_plane 0 w a (List.range n)).2.2.1
    (List.range m)
  refine ⟨?_, ?_, ?_, ?_⟩
  · rw [hgW]
    exact hp1
  · rw [hc1, hfW]
  · rw [hgPS]
    exact hp2
  · rw [hc2, hfCS]

/-- Claim C9: a resource never staged in a transaction has its live
state unchanged by the commit phase and by end, whatever the primitives
return.  The check phase of this embedding takes no world at all, so it
cannot change any live state. -/
theorem c9_unstaged_live_state_unchanged (P : Prims) (n m : Nat) (w : World)
    (a : AtomicState) (i j : Nat)
    (hpm : a.planes.getD i false = false)
    (hps : a.pstates.getD i none = none)
    (hcm : a.crtcs.getD j false = false)
    (hcs : a.cstates.getD j none = none) :
    (drm_atomic_helper_commit P n m w a).2.1.planes.getD i default =
      w.planes.getD i default ∧
    (drm_atomic_helper_commit P n m w a).2.1.crtcs.getD j default =
      w.crtcs.getD j default ∧
    (drm_atomic_helper_end n m w a).planes.getD i default =
      w.planes.getD i default ∧
    (drm_atomic_helper_end n m w a).crtcs.getD j default =
      w.crtcs.getD j default ∧
    (drm_atomic_helper_end n m (drm_atomic_helper_commit P n m w a).2.1
        (drm_atomic_helper_commit P n m w a).2.2.1).planes.getD i default =
      w.planes.getD i default ∧
    (drm_atomic_helper_end n m (drm_atomic_helper_commit P n m w a).2.1
        (drm_atomic_helper_commit P n m w a).2.2.1).crtcs.getD j default =
      w.crtcs.getD j default := by
  obtain ⟨g1, g2, g3, g4⟩ := commit_untouched P n m w a i j hpm hcm
  have g3n : (drm_atomic_helper_commit P n m w a).2.2.1.pstates.getD i none = none :=
    g3.trans hps
  have g4n : (drm_atomic_helper_commit P n m w a).2.2.1.cstates.getD j none = none :=
    g4.trans hcs
  have e1 : ∀ (w2 : World) (a2 : AtomicState), a2.pstates.getD i none = none →
      (drm_atomic_helper_end n m w2 a2).planes.getD i default =
        w2.planes.getD i default := by
    intro w2 a2 h2
    unfold drm_atomic_helper_end
    dsimp only
    rw [foldl_endCrtcStep_planes, foldl_endPlaneStep_planes_getD a2 _ _ _ h2]
  have e2 : ∀ (w2 : World) (a2 : AtomicState), a2.cstates.getD j none = none →
      (drm_atomic_helper_end n m w2 a2).crtcs.getD j default =
        w2.crtcs.getD j default := by
    intro w2 a2 h2
    unfold drm_atomic_helper_end
    dsimp only
    rw [foldl_endCrtcStep_crtcs_getD a2 _ _ _ h2, foldl_endPlaneStep_crtcs]
  exact ⟨g1, g2, e1 w a hps, e2 w a hcs,
    (e1 _ _ g3n).trans g1, (e2 _ _ g4n).trans g2⟩

/-- Closed instance of c9_unstaged_live_state_unchanged. -/
theorem c9_witness :
    (drm_atomic_helper_commit exPrimsOk 1 1 exW1
        (drm_atomic_helper_begin 1 1 0 0)).2.1.planes.getD 0 default =
      exW1.planes.getD 0 default :=
  (c9_unstaged_live_state_unchanged exPrimsOk 1 1 exW1
    (drm_atomic_helper_begin 1 1 0 0) 0 0
    (by decide) (by decide) (by decide) (by decide)).1

/-- Claim C7: staging is get-or-create and idempotent per transaction:
the first touch snapshots the live configuration into a fresh shadow
with a back-reference to the transaction and records marker and slot
together; every later touch returns the stored shadow and changes
nothing, so staging twice equals staging once. -/
theorem c7_stage_idempotent (i : Nat) (w : World) (a : AtomicState)
    (hp2 : i < a.pstates.length) (hc2 : i < a.cstates.length) :
    (a.pstates.getD i none = none →
      drm_atomic_helper_get_plane_state i w a =
        ({ (w.planes.getD i default).state with backref := some a.tid },
         { a with
           planes := a.planes.set i true
           pstates := a.pstates.set i
             (some { (w.planes.getD i default).state with backref := some a.tid }) })) ∧
    (∀ ps, a.pstates.getD i none = some ps →
      drm_atomic_helper_get_plane_state i w a = (ps, a)) ∧
    (drm_atomic_helper_get_plane_state i w
        (drm_atomic_helper_get_plane_state i w a).2 =
      drm_atomic_helper_get_plane_state i w a) ∧
    (a.cstates.getD i none = none →
      drm_atomic_helper_get_crtc_state i w a =
        ({ (w.crtcs.getD i default).state with backref := some a.tid },
         { a with
           crtcs := a.crtcs.set i true
           cstates := a.cstates.set i
             (some { (w.crtcs.getD i default).state with backref := some a.tid }) })) ∧
    (∀ cst, a.cstates.getD i none = some cst →
      drm_atomic_helper_get_crtc_state i w a = (cst, a)) ∧
    (drm_atomic_helper_get_crtc_state i w
        (drm_atomic_helper_get_crtc_state i w a).2 =
      drm_atomic_helper_get_crtc_state i w a) := by
  refine ⟨?_, ?_, ?_, ?_, ?_, ?_⟩
  · intro h
    unfold drm_atomic_helper_get_plane_state drm_atomic_helper_init_plane_state
    rw [h]
  · intro ps h
    unfold drm_atomic_helper_get_plane_state
    rw [h]
  · rcases hs : a.pstates.getD i none with _ | ps
    · have hfst : drm_atomic_helper_get_plane_state i w a =
          ({ (w.planes.getD i default).state with backref := some a.tid },
           { a with
             planes := a.planes.set i true
             pstates := a.pstates.set i
               (some { (w.planes.getD i default).state with backref := some a.tid }) }) := by
        unfold drm_atomic_helper_get_plane_state drm_atomic_helper_init_plane_state
        rw [hs]
      rw [hfst]
      unfold drm_atomic_helper_get_plane_state
      rw [getD_set_self _ _ _ _ hp2]
    · have hfst : drm_atomic_helper_get_plane_state i w a = (ps, a) := by
        unfold drm_atomic_helper_get_plane_state
        rw [hs]
      rw [hfst]
      exact hfst
  · intro h
    unfold drm_atomic_helper_get_crtc_state drm_atomic_helper_init_crtc_state
    rw [h]
  · intro cst h
    unfold drm_atomic_helper_get_crtc_state
    rw [h]
  · rcases hs : a.cstates.getD i none with _ | cst
    · have hfst : drm_atomic_helper_get_crtc_state i w a =
          ({ (w.crtcs.getD i default).state with backref := some a.tid },
           { a with
             crtcs := a.crtcs.set i true
             cstates := a.cstates.set i
               (some { (w.crtcs.getD i default).state with backref := some a.tid }) }) := by
        unfold drm_atomic_helper_get_crtc_state drm_atomic_helper_init_crtc_state
        rw [hs]
      rw [hfst]
      unfold drm_atomic_helper_get_crtc_state
      rw [getD_set_self _ _ _ _ hc2]
    · have hfst : drm_atomic_helper_get_crtc_state i w a = (cst, a) := by
        unfold drm_atomic_helper_get_crtc_state
        rw [hs]
      rw [hfst]
      exact hfst

/-- Closed instance of c7_stage_idempotent. -/
theorem c7_witness :
    drm_atomic_helper_get_plane_state 0 exW1 exA1 = (mkPS (some 0) (some 1), exA1) :=
  (c7_stage_idempotent 0 exW1 exA1 (by decide) (by decide)).2.1
    (mkPS (some 0) (some 1)) (by decide)

/-- begin establishes the parallel-table invariant. -/
theorem SlotInv_begin (n m f t : Nat) : SlotInv (drm_atomic_helper_begin n m f t) := by
  refine ⟨by simp [drm_atomic_helper_begin], by simp [drm_atomic_helper_begin], ?_, ?_⟩
  · intro i
    unfold drm_atomic_helper_begin
    rw [getD_replicate_self, getD_replicate_self]
    simp
  · intro i
    unfold drm_atomic_helper_begin
    rw [getD_replicate_self, getD_replicate_self]
    simp

/-- Staging a plane preserves the parallel-table invariant: marker and
slot are written together. -/
theorem SlotInv_stage_plane (i : Nat) (w : World) (a : AtomicState) (h : SlotInv a) :
    SlotInv (drm_atomic_helper_get_plane_state i w a).2 := by
  obtain ⟨hl1, hl2, hp, hc⟩ := h
  unfold drm_atomic_helper_get_plane_state
  rcases hs : a.pstates.getD i none with _ | ps
  · dsimp only
    refine ⟨by simp [hl1], hl2, ?_, hc⟩
    intro k
    by_cases hk : i = k
    · subst hk
      by_cases hi : i < a.planes.length
      · rw [getD_set_self _ _ _ _ hi, getD_set_self _ _ _ _ (hl1 ▸ hi)]
        simp
      · rw [List.set_eq_of_length_le (Nat.le_of_not_lt hi),
          List.set_eq_of_length_le (hl1 ▸ Nat.le_of_not_lt hi)]
        exact hp i
    · rw [getD_set_ne _ _ _ _ _ hk, getD_set_ne _ _ _ _ _ hk]
      exact hp k
  · exact ⟨hl1, hl2, hp, hc⟩

/-- Staging a crtc preserves the parallel-table invariant. -/
theorem SlotInv_stage_crtc (i : Nat) (w : World) (a : AtomicState) (h : SlotInv a) :
    SlotInv (drm_atomic_helper_get_crtc_state i w a).2 := by
  obtain ⟨hl1, hl2, hp, hc⟩ := h
  unfold drm_atomic_helper_get_crtc_state
  rcases hs : a.cstates.getD i none with _ | cst
  · dsimp only
    refine ⟨hl1, by simp [hl2], hp, ?_⟩
    intro k
    by_cases hk : i = k
    · subst hk
      by_cases hi : i < a.crtcs.length
      · rw [getD_set_self _ _ _ _ hi, getD_set_self _ _ _ _ (hl2 ▸ hi)]
        simp
      · rw [List.set_eq_of_length_le (Nat.le_of_not_lt hi),
          List.set_eq_of_length_le (hl2 ▸ Nat.le_of_not_lt hi)]
        exact hc i
    · rw [getD_set_ne _ _ _ _ _ hk, getD_set_ne _ _ _ _ _ hk]
      exact hc k
  · exact ⟨hl1, hl2, hp, hc⟩

/-- Committing a touched plane preserves the parallel-table invariant:
the swap replaces a populated slot with another populated slot. -/
theorem SlotInv_commit_plane_state (upd : Nat → PlaneState → Int) (i : Nat)
    (w : World) (a : AtomicState) (hm : a.planes.getD i false = true)
    (h : SlotInv a) :
    SlotInv (drm_atomic_helper_commit_plane_state upd i w a).2.2.1 := by
  obtain ⟨hl1, hl2, hp, hc⟩ := h
  obtain hs | hs := commit_plane_state_txn_shape upd i w a <;> rw [hs]
  · exact ⟨hl1, hl2, hp, hc⟩
  · refine ⟨by simp [hl1], hl2, ?_, hc⟩
    intro k
    by_cases hk : i = k
    · subst hk
      have hi : i < a.planes.length := by
        by_contra hge
        rw [getD_of_length_le _ _ _ (Nat.le_of_not_lt hge)] at hm
        exact Bool.noConfusion hm
      rw [getD_set_self _ _ _ _ (hl1 ▸ hi)]
      exact iff_of_true hm rfl
    · rw [getD_set_ne _ _ _ _ _ hk]
      exact hp k

/-- Committing a touched crtc preserves the parallel-table invariant. -/
theorem SlotInv_commit_crtc_state (P : Prims) (i : Nat)
    (w : World) (a : AtomicState) (hm : a.crtcs.getD i false = true)
    (h : SlotInv a) :
    SlotInv (drm_atomic_helper_commit_crtc_state P i w a).2.2.1 := by
  obtain ⟨hl1, hl2, hp, hc⟩ := h
  obtain hs | hs := commit_crtc_state_txn_shape P i w a <;> rw [hs]
  · exact ⟨hl1, hl2, hp, hc⟩
  · refine ⟨hl1, by simp [hl2], hp, ?_⟩
    intro k
    by_cases hk : i = k
    · subst hk
      have hi : i < a.crtcs.length := by
        by_contra hge
        rw [getD_of_length_le _ _ _ (Nat.le_of_not_lt hge)] at hm
        exact Bool.noConfusion hm
      rw [getD_set_self _ _ _ _ (hl2 ▸ hi)]
      exact iff_of_true hm rfl
    · rw [getD_set_ne _ _ _ _ _ hk]
      exact hc k

/-- The plane pass preserves the parallel-table invariant. -/
theorem SlotInv_commitPlanesGo (upd : Nat → PlaneState → Int) (ret : Int)
    (w : World) (a : AtomicState) (l : List Nat) (h : SlotInv a) :
    SlotInv (commitPlanesGo upd ret w a l).2.2.1 := by
  induction l generalizing ret w a with
  | nil => exact h
  | cons i rest ih =>
    simp only [commitPlanesGo]
    split
    · rename_i hm
      split
      · exact SlotInv_commit_plane_state upd i w a hm h
      · exact ih _ _ _ (SlotInv_commit_plane_state upd i w a hm h)
    · exact ih ret w a h

/-- The crtc pass preserves the parallel-table invariant. -/
theorem SlotInv_commitCrtcsGo (P : Prims) (ret : Int)
    (w : World) (a : AtomicState) (l : List Nat) (h : SlotInv a) :
    SlotInv (commitCrtcsGo P ret w a l).2.2.1 := by
  induction l generalizing ret w a with
  | nil => exact h
  | cons i rest ih =>
    simp only [commitCrtcsGo]
    split
    · rename_i hm
      split
      · exact SlotInv_commit_crtc_state P i w a hm h
      · exact ih _ _ _ (SlotInv_commit_crtc_state P i w a hm h)
    · exact ih ret w a h

/-- The whole commit phase preserves the parallel-table invariant. -/
theorem SlotInv_commit (P : Prims) (n m : Nat) (w : World) (a : AtomicState)
    (h : SlotInv a) : SlotInv (drm_atomic_helper_commit P n m w a).2.2.1 := by
  unfold drm_atomic_helper_commit
  dsimp only
  exact SlotInv_commitCrtcsGo P _ _ _ _
    (SlotInv_commitPlanesGo P.update_plane 0 w a (List.range n) h)

/-- Claim C8: in every transaction state reachable through begin, stage
and apply, a shadow slot is populated exactly when the matching
touched marker is set, for planes and crtcs alike; the pair is created
together by stage and no operation clears one side alone. -/
theorem c8_marker_shadow_invariant (w : World) (a : AtomicState) (h : Reach w a) :
    SlotInv a := by
  induction h with
  | begin n m f t w => exact SlotInv_begin n m f t
  | stagePlane i h ih => exact SlotInv_stage_plane i _ _ ih
  | stageCrtc i h ih => exact SlotInv_stage_crtc i _ _ ih
  | commit P n m h ih => exact SlotInv_commit P n m _ _ ih

/-- Closed instance of c8_marker_shadow_invariant. -/
theorem c8_witness : SlotInv (drm_atomic_helper_begin 2 1 0 0) :=
  c8_marker_shadow_invariant exW1 (drm_atomic_helper_begin 2 1 0 0)
    (Reach.begin 2 1 0 0 exW1)

/-- Splitting the check loop at a list append, for a zero incoming
status: the loop either fails inside the first part and stops, or
finishes the first part with status zero and continues. -/
theorem checkGo_append (hook : Nat → PlaneState → Int) (a : AtomicState)
    (l1 l2 : List Nat) :
    checkGo hook a 0 (l1 ++ l2) =
      (if (checkGo hook a 0 l1).1 = 0 then
        ((checkGo hook a 0 l2).1, (checkGo hook a 0 l1).2 ++ (checkGo hook a 0 l2).2)
      else checkGo hook a 0 l1) := by
  induction l1 with
  | nil => simp [checkGo]
  | cons i rest ih =>
    by_cases ht : a.planes[i]?.getD false = true
    · by_cases hr : hook i ((a.pstates[i]?.getD none).getD default) = 0
      · by_cases h0 : (checkGo hook a 0 rest).1 = 0
        · simp [checkGo, ht, hr, h0, ih]
        · simp [checkGo, ht, hr, h0, ih]
      · simp [checkGo, ht, hr]
    · simp [checkGo, ht, ih]

/-- One step of drm_atomic_helper_check seen from the top: checking n+1
planes runs the first n and then, if still clean, plane n alone. -/
theorem check_step (hook : Nat → PlaneState → Int) (n : Nat) (a : AtomicState) :
    drm_atomic_helper_check hook (n + 1) a =
      (if (drm_atomic_helper_check hook n a).1 = 0 then
        ((checkGo hook a 0 [n]).1,
          (drm_atomic_helper_check hook n a).2 ++ (checkGo hook a 0 [n]).2)
      else drm_atomic_helper_check hook n a) := by
  unfold drm_atomic_helper_check
  rw [List.range_succ]
  exact checkGo_append hook a (List.range n) [n]

/-- Claim C3: validate invokes the surface check hook on the shadow of
every touched surface in resource-identity order, stops at the first
hook failure and returns that error, returns zero when every hook
succeeds or nothing is touched, and never invokes any check on an
output: every recorded invocation is a plane check. -/
theorem c3_check_touched_surfaces_in_order (hook : Nat → PlaneState → Int)
    (n : Nat) (a : AtomicState) :
    (∀ e ∈ (drm_atomic_helper_check hook n a).2, ∃ i, e = Ev.checkPlane i ∧
      i < n ∧ a.planes.getD i false = true) ∧
    ((drm_atomic_helper_check hook n a).1 = 0 ↔
      ∀ i < n, a.planes.getD i false = true →
        hook i ((a.pstates.getD i none).getD default) = 0) ∧
    ((drm_atomic_helper_check hook n a).1 = 0 →
      ∀ i < n, a.planes.getD i false = true →
        Ev.checkPlane i ∈ (drm_atomic_helper_check hook n a).2) ∧
    ((drm_atomic_helper_check hook n a).1 ≠ 0 →
      ∃ i, i < n ∧ a.planes.getD i false = true ∧
        hook i ((a.pstates.getD i none).getD default) =
          (drm_atomic_helper_check hook n a).1 ∧
        (∀ j < i, a.planes.getD j false = true →
          hook j ((a.pstates.getD j none).getD default) = 0) ∧
        (∀ j, Ev.checkPlane j ∈ (drm_atomic_helper_check hook n a).2 → j ≤ i)) := by
  induction n with
  | zero =>
    refine ⟨?_, ?_, ?_, ?_⟩
    · intro e he
      exact absurd he (List.not_mem_nil e)
    · exact iff_of_true rfl (fun i hi => absurd hi (Nat.not_lt_zero i))
    · intro _ i hi
      exact absurd hi (Nat.not_lt_zero i)
    · intro hne
      exact absurd rfl hne
  | succ n ih =>
    obtain ⟨ihA, ihB, ihC, ihD⟩ := ih
    rw [check_step]
    by_cases h0 : (drm_atomic_helper_check hook n a).1 = 0
    · rw [if_pos h0]
      by_cases ht : a.planes.getD n false = true
      · by_cases hr : hook n ((a.pstates.getD n none).getD default) = 0
        · have hsing : checkGo hook a 0 [n] = (0, [Ev.checkPlane n]) := by
            have ht2 : a.planes[n]?.getD false = true := by simpa using ht
            have hr2 : hook n ((a.pstates[n]?.getD none).getD default) = 0 := by simpa using hr
            simp [checkGo, ht2, hr2]
          rw [hsing]
          refine ⟨?_, ?_, ?_, ?_⟩
          · intro e he
            rcases List.mem_append.mp he with h | h
            · obtain ⟨i, hei, hin, hti⟩ := ihA e h
              exact ⟨i, hei, Nat.lt_succ_of_lt hin, hti⟩
            · rw [List.mem_singleton.mp h]
              exact ⟨n, rfl, Nat.lt_succ_self n, ht⟩
          · refine iff_of_true rfl ?_
            intro i hi hti
            rcases Nat.lt_succ_iff_lt_or_eq.mp hi with h | h
            · exact ihB.mp h0 i h hti
            · subst h
              exact hr
          · intro _ i hi hti
            rcases Nat.lt_succ_iff_lt_or_eq.mp hi with h | h
            · exact List.mem_append_left _ (ihC h0 i h hti)
            · subst h
              exact List.mem_append_right _ (List.mem_singleton_self _)
          · intro hne
            exact absurd rfl hne
        · have hsing : checkGo hook a 0 [n] =
              (hook n ((a.pstates.getD n none).getD default), [Ev.checkPlane n]) := by
            have ht2 : a.planes[n]?.getD false = true := by simpa using ht
            simp [checkGo, ht2]
          rw [hsing]
          refine ⟨?_, ?_, ?_, ?_⟩
          · intro e he
            rcases List.mem_append.mp he with h | h
            · obtain ⟨i, hei, hin, hti⟩ := ihA e h
              exact ⟨i, hei, Nat.lt_succ_of_lt hin, hti⟩
            · rw [List.mem_singleton.mp h]
              exact ⟨n, rfl, Nat.lt_succ_self n, ht⟩
          · refine iff_of_false hr ?_
            intro hall
            exact hr (hall n (Nat.lt_succ_self n) ht)
          · intro hz
            exact absurd hz hr
          · intro _
            refine ⟨n, Nat.lt_succ_self n, ht, rfl, ?_, ?_⟩
            · intro j hj htj
              exact ihB.mp h0 j hj htj
            · intro j hj
              rcases List.mem_append.mp hj with h | h
              · obtain ⟨i, hei, hin, _⟩ := ihA _ h
                injection hei with hji
                omega
              · have hev : Ev.checkPlane j = Ev.checkPlane n := List.mem_singleton.mp h
                injection hev with hjn
                omega
      · have hsing : checkGo hook a 0 [n] = (0, []) := by
          have ht2 : ¬(a.planes[n]?.getD false = true) := by simpa using ht
          simp [checkGo, ht2]
        rw [hsing]
        refine ⟨?_, ?_, ?_, ?_⟩
        · intro e he
          rw [List.append_nil] at he
          obtain ⟨i, hei, hin, hti⟩ := ihA e he
          exact ⟨i, hei, Nat.lt_succ_of_lt hin, hti⟩
        · refine iff_of_true rfl ?_
          intro i hi hti
          rcases Nat.lt_succ_iff_lt_or_eq.mp hi with h | h
          · exact ihB.mp h0 i h hti
          · subst h
            exact absurd hti ht
        · intro _ i hi hti
          rw [List.append_nil]
          rcases Nat.lt_succ_iff_lt_or_eq.mp hi with h | h
          · exact ihC h0 i h hti
          · subst h
            exact absurd hti ht
        · intro hne
          exact absurd rfl hne
    · rw [if_neg h0]
      refine ⟨?_, ?_, ?_, ?_⟩
      · intro e he
        obtain ⟨i, hei, hin, hti⟩ := ihA e he
        exact ⟨i, hei, Nat.lt_succ_of_lt hin, hti⟩
      · refine iff_of_false h0 ?_
        intro hall
        exact h0 (ihB.mpr (fun i hi hti => hall i (Nat.lt_succ_of_lt hi) hti))
      · intro hz
        exact absurd hz h0
      · intro _
        obtain ⟨i, hin, hti, hhi, hmin, htr⟩ := ihD h0
        exact ⟨i, Nat.lt_succ_of_lt hin, hti, hhi, hmin, htr⟩

/-- Closed instance of c3_check_touched_surfaces_in_order. -/
theorem c3_witness :
    Ev.checkPlane 0 ∈ (drm_atomic_helper_check (fun _ _ => 0) 1 exA1).2 :=
  (c3_check_touched_surfaces_in_order (fun _ _ => 0) 1 exA1).2.2.1 (by decide) 0
    (by decide) (by decide)

/-- The crtc pass over a list of untouched indices is a no-op carrying
the incoming status through. -/
theorem commitCrtcsGo_no_touch (P : Prims) (ret : Int) (w : World) (a : AtomicState)
    (l : List Nat) (h : ∀ j ∈ l, a.crtcs.getD j false = false) :
    commitCrtcsGo P ret w a l = (ret, w, a, []) := by
  induction l with
  | nil => rfl
  | cons j rest ih =>
    simp only [commitCrtcsGo]
    split
    · rename_i hguard
      rw [h j (List.mem_cons_self j rest)] at hguard
      exact Bool.noConfusion hguard
    · exact ih (fun k hk => h k (List.mem_cons_of_mem j hk))

/-- The first touched crtc in the iteration order always has its commit
hook invoked, whatever the incoming status is. -/
theorem commitCrtcsGo_first_touched (P : Prims) (ret : Int) (w : World)
    (a : AtomicState) (l1 : List Nat) (j : Nat) (l2 : List Nat)
    (h1 : ∀ k ∈ l1, a.crtcs.getD k false = false)
    (hj : a.crtcs.getD j false = true) :
    Ev.commitCrtc j ∈ (commitCrtcsGo P ret w a (l1 ++ j :: l2)).2.2.2 := by
  induction l1 generalizing ret with
  | nil =>
    simp only [List.nil_append, commitCrtcsGo]
    rw [hj, if_pos rfl]
    split
    · exact List.mem_cons_self _ _
    · exact List.mem_append_left _ (List.mem_cons_self _ _)
  | cons k rest ih =>
    simp only [List.cons_append, commitCrtcsGo]
    split
    · rename_i hguard
      rw [h1 k (List.mem_cons_self k rest)] at hguard
      exact Bool.noConfusion hguard
    · exact ih ret (fun q hq => h1 q (List.mem_cons_of_mem k hq))

/-- Claim C1, counterexample to the original statement: a transaction
whose only surface commit fails with -5 while a touched output commits
successfully.  apply() does not return the surface error (it returns 0),
the output commit hook is invoked, and the output live state changes. -/
theorem c1_counterexample :
    (drm_atomic_helper_commit_plane_state exPrimsPlaneFail.update_plane 0
        exW1 exA1).1 = -5 ∧
    (drm_atomic_helper_commit exPrimsPlaneFail 1 1 exW1 exA1).1 = 0 ∧
    Ev.commitCrtc 0 ∈ (drm_atomic_helper_commit exPrimsPlaneFail 1 1 exW1 exA1).2.2.2 ∧
    ((drm_atomic_helper_commit exPrimsPlaneFail 1 1 exW1 exA1).2.1.crtcs.getD 0
        default).state ≠ (exW1.crtcs.getD 0 default).state := by
  exact ⟨by decide, by decide, by decide, by decide⟩

/-- Claim C1 as amended: a failing surface commit aborts the remainder
of the surface pass, but the output pass is still executed on the
resulting state; the surface error is the returned status only when no
output is touched, and the first touched output always has its commit
hook invoked regardless of the surface pass outcome. -/
theorem c1_surface_failure_aborts_pass_output_pass_still_runs :
    (∀ (upd : Nat → PlaneState → Int) (ret : Int) (w : World) (a : AtomicState)
        (i : Nat) (rest : List Nat),
      a.planes.getD i false = true →
      (drm_atomic_helper_commit_plane_state upd i w a).1 ≠ 0 →
      commitPlanesGo upd ret w a (i :: rest) =
        ((drm_atomic_helper_commit_plane_state upd i w a).1,
         (drm_atomic_helper_commit_plane_state upd i w a).2.1,
         (drm_atomic_helper_commit_plane_state upd i w a).2.2.1,
         Ev.commitPlane i :: (drm_atomic_helper_commit_plane_state upd i w a).2.2.2)) ∧
    (∀ (P : Prims) (n m : Nat) (w : World) (a : AtomicState),
      (∀ j < m, a.crtcs.getD j false = false) →
      (drm_atomic_helper_commit P n m w a).1 =
        (commitPlanesGo P.update_plane 0 w a (List.range n)).1) ∧
    (∀ (P : Prims) (n m : Nat) (w : World) (a : AtomicState) (j : Nat),
      j < m → a.crtcs.getD j false = true →
      (∀ k < j, a.crtcs.getD k false = false) →
      Ev.commitCrtc j ∈ (drm_atomic_helper_commit P n m w a).2.2.2) := by
  refine ⟨?_, ?_, ?_⟩
  · intro upd ret w a i rest hm hf
    simp only [commitPlanesGo]
    rw [hm, if_pos rfl, if_pos hf]
  · intro P n m w a h
    unfold drm_atomic_helper_commit
    dsimp only
    have hfr := (commitPlanesGo_frame P.update_plane 0 w a (List.range n)).2.1
    have h2 : ∀ j ∈ List.range m,
        (commitPlanesGo P.update_plane 0 w a
          (List.range n)).2.2.1.crtcs.getD j false = false := by
      intro j hj
      rw [hfr]
      exact h j (List.mem_range.mp hj)
    rw [commitCrtcsGo_no_touch P _ _ _ _ h2]
  · intro P n m w a j hjm hj hmin
    unfold drm_atomic_helper_commit
    dsimp only
    apply List.mem_append_right
    have hfr := (commitPlanesGo_frame P.update_plane 0 w a (List.range n)).2.1
    have hj2 : (commitPlanesGo P.update_plane 0 w a
        (List.range n)).2.2.1.crtcs.getD j false = true := by
      rw [hfr]
      exact hj
    rw [range_split j m hjm]
    refine commitCrtcsGo_first_touched P _ _ _ (List.range j) j _ ?_ hj2
    intro k hk
    rw [hfr]
    exact hmin k (List.mem_range.mp hk)

/-- Closed instance of the amended claim C1. -/
theorem c1_witness :
    Ev.commitCrtc 0 ∈
      (drm_atomic_helper_commit exPrimsPlaneFail 1 1 exW1 exA1).2.2.2 :=
  c1_surface_failure_aborts_pass_output_pass_still_runs.2.2 exPrimsPlaneFail 1 1
    exW1 exA1 0 (by decide) (by decide)
    (fun k hk => absurd hk (Nat.not_lt_zero k))

end DrmAtomic
